import Mathlib

/-!
Verification of the podcast-video generator (src/main.py) against its
natural-language specification.  The Python source is shallowly embedded:
text is `List Char`, regex search/substitution over the literal bracket
patterns becomes substring search/removal, money times and durations are
rationals, and the float arithmetic of the motion model is idealised over
the reals with `Real.sin` standing for `np.sin`.  External collaborators
(the TTS providers, PIL glyph measurement, moviepy concatenation) enter as
explicit parameters or `Except` values describing their outcome.
-/

/-! ## Python string primitives -/

/-- Whitespace characters recognised by Python's `str.strip` / `str.split`
for the ASCII texts this program handles. -/
def pyIsSpace (c : Char) : Bool :=
  c = ' ' || c = '\t' || c = '\n' || c = '\r' || c = '\x0b' || c = '\x0c'

/-- Python `str.strip()`: drop leading and trailing whitespace. -/
def pyStrip (s : List Char) : List Char :=
  ((s.dropWhile pyIsSpace).reverse.dropWhile pyIsSpace).reverse

/-- Convert a Lean string literal to the character-list representation. -/
def str2l (s : String) : List Char :=
  s.data

/-- Boolean test that `pat` is a prefix of `s`. -/
def isPrefixL : List Char → List Char → Bool
  | [], _ => true
  | _ :: _, [] => false
  | a :: as, b :: bs => a = b && isPrefixL as bs

/-- Boolean substring test: `re.search` for the escaped literal patterns of
`EventParser.EVENT_PATTERNS` is exactly substring presence. -/
def containsSub (pat : List Char) : List Char → Bool
  | [] => isPrefixL pat []
  | c :: rest => isPrefixL pat (c :: rest) || containsSub pat rest

/-- Fuelled worker for `removeAll`; the fuel only serves to make the
left-to-right non-overlapping removal structurally recursive, and
`s.length` fuel is always enough for a non-empty pattern. -/
def removeAllFuel (pat : List Char) : Nat → List Char → List Char
  | 0, s => s
  | _ + 1, [] => []
  | fuel + 1, c :: rest =>
    if isPrefixL pat (c :: rest) then removeAllFuel pat fuel ((c :: rest).drop pat.length)
    else c :: removeAllFuel pat fuel rest

/-- `re.sub(pattern, "", s)` for a literal pattern: remove every
non-overlapping occurrence, scanning left to right. -/
def removeAll (pat s : List Char) : List Char :=
  removeAllFuel pat s.length s

/-! ## EventParser (src/main.py lines 25-46) -/

/-- The fixed marker vocabulary `EventParser.EVENT_PATTERNS`, in dict
insertion order; each escaped regex is just its literal bracketed text. -/
def EVENT_PATTERNS : List (String × List Char) :=
  [("laugh", str2l "[laugh]"),
   ("surprise", str2l "[surprise]"),
   ("sad", str2l "[sad]"),
   ("excited", str2l "[excited]"),
   ("angry", str2l "[angry]"),
   ("confused", str2l "[confused]")]

/-- One iteration of the `for event_type, pattern in cls.EVENT_PATTERNS.items()`
loop of `parse_events`: on a hit, append one `(0.5, event_type)` event and
replace the text by the stripped result of removing all occurrences. -/
def parse_step (st : List Char × List (ℚ × String)) (pe : String × List Char) :
    List Char × List (ℚ × String) :=
  if containsSub pe.2 st.1 then
    (pyStrip (removeAll pe.2 st.1), st.2 ++ [((1 : ℚ) / 2, pe.1)])
  else st

/-- `EventParser.parse_events`: fold the per-pattern step over the fixed
vocabulary, starting from the raw text and no events. -/
def parse_events (text : List Char) : List Char × List (ℚ × String) :=
  EVENT_PATTERNS.foldl parse_step (text, [])

/-! ## AudioGenerator (src/main.py lines 48-74)

Both generators wrap the external text-to-speech call in `try/except` and,
on failure, only log the error before returning normally.  The external
call's outcome is passed in as an `Except` value; the embedded function
returns `Except.ok logs` when the Python function returns (possibly after
catching), and would return `Except.error` only if an exception escaped. -/

inductive LogLevel where
  | info
  | error
deriving DecidableEq

/-- `AudioGenerator.generate_gtts`: the gTTS construction and save are
external; `tts_save` is their combined outcome. -/
def generate_gtts (output_file : String) (tts_save : Except String Unit) :
    Except String (List (LogLevel × String)) :=
  match tts_save with
  | Except.ok _ => Except.ok [(LogLevel.info, "gTTS Audio generated: " ++ output_file)]
  | Except.error e => Except.ok [(LogLevel.error, "gTTS audio generation error: " ++ e)]

/-- `AudioGenerator.generate_playht`: the Play.ht client construction and
chunk streaming are external; `tts_stream` is their combined outcome. -/
def generate_playht (output_file : String) (tts_stream : Except String Unit) :
    Except String (List (LogLevel × String)) :=
  match tts_stream with
  | Except.ok _ => Except.ok [(LogLevel.info, "Play.ht Audio generated: " ++ output_file)]
  | Except.error e => Except.ok [(LogLevel.error, "Play.ht audio generation error: " ++ e)]

/-! ## SubtitleGenerator (src/main.py lines 76-150)

Glyph measurement (`draw.textbbox` width at a given font size) is external
to the program; it enters as the parameter `gw : font size → text → width`.
The wrapping and font-size-fitting logic is translated from the source. -/

/-- Python `text.split()`: split on whitespace runs, dropping empties;
`acc` is the current word accumulated in reverse. -/
def pySplitAux (acc : List Char) : List Char → List (List Char)
  | [] => if acc = [] then [] else [acc.reverse]
  | c :: rest =>
    if pyIsSpace c then
      if acc = [] then pySplitAux [] rest else acc.reverse :: pySplitAux [] rest
    else pySplitAux (c :: acc) rest

/-- Python `text.split()`. -/
def pySplit (s : List Char) : List (List Char) :=
  pySplitAux [] s

/-- Python `' '.join(words)`. -/
def joinSpace : List (List Char) → List Char
  | [] => []
  | [w] => w
  | w :: x :: ws => w ++ (' ' :: joinSpace (x :: ws))

/-- The word loop of `wrap_text`: greedily pack words into `current_line`
while the measured width of the joined test line stays within budget; a
word that does not fit closes the current line (even when it is empty) and
starts a new line with that word. -/
def wrapGo (measure : List Char → Nat) (max_width : Nat) :
    List (List Char) → List (List Char) → List (List Char) → List (List Char)
  | lines, current_line, [] =>
    if current_line = [] then lines else lines ++ [joinSpace current_line]
  | lines, current_line, word :: ws =>
    if measure (joinSpace (current_line ++ [word])) ≤ max_width then
      wrapGo measure max_width lines (current_line ++ [word]) ws
    else
      wrapGo measure max_width (lines ++ [joinSpace current_line]) [word] ws

/-- `wrap_text(text, font, max_width)` of `create_subtitle_mask`, with the
font abstracted into the measurement function. -/
def wrap_text (measure : List Char → Nat) (text : List Char) (max_width : Nat) :
    List (List Char) :=
  wrapGo measure max_width [] [] (pySplit text)

/-- Result of the font-size fitting loop: the final value of the
`current_fontsize` counter, the size of the font object actually used for
rendering, and the wrapped lines. -/
structure LayoutResult where
  current_fontsize : Nat
  font : Nat
  lines : List (List Char)
deriving DecidableEq

/-- The `while current_fontsize > 20` loop of `create_subtitle_mask`.
Each iteration loads the font at `current` and re-wraps; it breaks once at
most 3 lines result, else decrements by 2.  The fuel argument only makes
the loop structurally recursive; `fit_font` supplies enough.  On normal
exit the wrapped lines and font from the last executed iteration are kept,
while the counter has already moved below the loop bound. -/
def fitLoop (gw : Nat → List Char → Nat) (text : List Char) (max_width : Nat) :
    Nat → Nat → Nat → List (List Char) → LayoutResult
  | 0, current, font, lines => ⟨current, font, lines⟩
  | fuel + 1, current, font, lines =>
    if 20 < current then
      let lines2 := wrap_text (gw current) text max_width
      if lines2.length ≤ 3 then ⟨current, current, lines2⟩
      else fitLoop gw text max_width fuel (current - 2) current lines2
    else ⟨current, font, lines⟩

/-- The layout part of `SubtitleGenerator.create_subtitle_mask`: budget is
`w - 100`, the counter and the initially loaded font both start at the base
`fontsize` (48 by default at every call site), and the wrapped-lines
variable starts empty. -/
def create_subtitle_layout (gw : Nat → List Char → Nat) (w : Nat) (text : List Char)
    (fontsize : Nat) : LayoutResult :=
  fitLoop gw text (w - 100) fontsize fontsize fontsize []

/-! ## DialogClip motion model (src/main.py lines 175-227)

`np.sin` is idealised as `Real.sin`; Python `int()` conversion truncates
toward zero. -/

/-- Python `int()` applied to a real value: truncation toward zero. -/
noncomputable def pyInt (x : ℝ) : ℤ :=
  if 0 ≤ x then ⌊x⌋ else ⌈x⌉

/-- `DialogClip.EVENT_MOVEMENTS` as an association list in dict insertion
order, each value the `(shake_amount, frequency)` pair. -/
def EVENT_MOVEMENTS : List (String × ℤ × ℤ) :=
  [("laugh", (15, 20)),
   ("surprise", (20, 30)),
   ("sad", (5, 10)),
   ("excited", (25, 40)),
   ("angry", (30, 50)),
   ("confused", (10, 15))]

/-- `EVENT_MOVEMENTS.get(event_type, {})` followed by
`.get('shake_amount', 5)` and `.get('frequency', 10)`: every table entry
carries both keys, so this is lookup with default `(5, 10)`. -/
def movement_params (event_type : String) : ℤ × ℤ :=
  match EVENT_MOVEMENTS.lookup event_type with
  | some p => p
  | none => (5, 10)

/-- `int(shake_amount * np.sin(t * frequency))` as it appears on lines 212
and 219 of the source. -/
noncomputable def shake_offset (t : ℝ) (shake_amount frequency : ℤ) : ℤ :=
  pyInt ((shake_amount : ℝ) * Real.sin (t * (frequency : ℝ)))

/-- The activation window test of the event loop:
`t >= event_time and t < event_time + 0.5`. -/
def event_active (ev : ℝ × String) (t : ℝ) : Prop :=
  ev.1 ≤ t ∧ t < ev.1 + 1 / 2

noncomputable instance (ev : ℝ × String) (t : ℝ) : Decidable (event_active ev t) :=
  instDecidableAnd

/-- One iteration of the `for event_time, event_type in self.events` loop:
an active event overwrites `offset` with its own sinusoidal displacement
(evaluated at the same absolute `t`); an inactive one leaves it alone. -/
noncomputable def offset_step (t : ℝ) (offset : ℤ) (ev : ℝ × String) : ℤ :=
  if event_active ev t then
    shake_offset t (movement_params ev.2).1 (movement_params ev.2).2
  else offset

/-- The full offset computation of `DialogClip.__call__` (lines 211-220):
idle sway `int(5 * sin(t * 10))`, then the event loop. -/
noncomputable def compute_offset (events : List (ℝ × String)) (t : ℝ) : ℤ :=
  events.foldl (offset_step t) (shake_offset t 5 10)

/-- Character x-positions chosen on lines 203-227: character 1 anchors at
the left margin 10, character 2 at `1920 - char2_width - 10`, and the
computed offset is added to the speaking character's anchor only. -/
noncomputable def char_positions (char2_width : ℤ) (speaking_char : Nat)
    (events : List (ℝ × String)) (t : ℝ) : ℤ × ℤ :=
  let offset := compute_offset events t
  let char1_x : ℤ := 10
  let char2_x : ℤ := 1920 - char2_width - 10
  if speaking_char = 1 then (char1_x + offset, char2_x)
  else (char1_x, char2_x + offset)

/-! ## Frame compositing (src/main.py lines 198-235) -/

/-- An RGBA raster: dimensions plus a pixel function. -/
structure Img where
  width : ℤ
  height : ℤ
  pix : ℤ × ℤ → ℤ × ℤ × ℤ × ℤ

/-- `frame.paste(sprite, pos, sprite)`: inside the pasted rectangle the
sprite's own alpha channel acts as a cutout mask. -/
def paste (base sprite : Img) (pos : ℤ × ℤ) : Img :=
  { base with
    pix := fun p =>
      let q := (p.1 - pos.1, p.2 - pos.2)
      if 0 ≤ q.1 ∧ q.1 < sprite.width ∧ 0 ≤ q.2 ∧ q.2 < sprite.height ∧
          0 < (sprite.pix q).2.2.2 then
        sprite.pix q
      else base.pix p }

/-- Lines 231-233: wherever the subtitle mask's alpha is nonzero, its RGB
replaces the frame's (hard alpha test, frame alpha untouched). -/
def overlay_subtitle (frame subtitle : Img) : Img :=
  { frame with
    pix := fun p =>
      if 0 < (subtitle.pix p).2.2.2 then
        ((subtitle.pix p).1, (subtitle.pix p).2.1, (subtitle.pix p).2.2.1,
          (frame.pix p).2.2.2)
      else frame.pix p }

/-- The state captured by a `DialogClip` instance at construction
(lines 185-196). -/
structure DialogState where
  background : Img
  char1 : Img
  char2 : Img
  text : List Char
  speaking_char : Nat
  duration : ℝ
  events : List (ℝ × String)

/-- `DialogClip.__call__(t)` with explicit state passing.  The body starts
from a fresh copy of the captured background, pastes both sprites at the
positions of lines 222-227, recomputes the subtitle mask from scratch via
the external glyph renderer `subtitle_draw`, and overlays it.  No captured
object is the target of a mutating operation, so the state comes back
unchanged alongside the frame. -/
noncomputable def dialog_call (subtitle_draw : Nat → Nat → List Char → Img)
    (st : DialogState) (t : ℝ) : Img × DialogState :=
  let frame := st.background
  let char_y : ℤ := 1080 - 600
  let pos := char_positions st.char2.width st.speaking_char st.events t
  let frame1 := paste frame st.char1 (pos.1, char_y)
  let frame2 := paste frame1 st.char2 (pos.2, char_y)
  let subtitle := subtitle_draw 1920 1080 st.text
  (overlay_subtitle frame2 subtitle, st)

/-! ## VideoCreator turn sequencing (src/main.py lines 302-322) -/

/-- The data each loop iteration of `create_conversation_video_oop` fixes
for one turn before handing it to moviepy. -/
structure Clip where
  text : List Char
  speaking_char : Nat
  duration : ℚ
  events : List (ℚ × String)

/-- The clip-building loop: `enumerate(zip(processed_texts, audio_files,
all_events))` with `duration = audio_clip.duration + 0.5` and
`speaking_char = 1 if i % 4 in [0, 1] else 2`.  Like Python `zip`, the
recursion stops at the shorter list. -/
def build_clips_aux (i : Nat) :
    List (List Char × List (ℚ × String)) → List ℚ → List Clip
  | [], _ => []
  | _ :: _, [] => []
  | (tx, evs) :: rest, d :: ds =>
    { text := tx,
      speaking_char := if i % 4 = 0 ∨ i % 4 = 1 then 1 else 2,
      duration := d + 1 / 2,
      events := evs } :: build_clips_aux (i + 1) rest ds

/-- Turn construction for a list of raw texts and externally resolved audio
durations: parse each text (lines 282-288), then build the clips. -/
def build_clips (texts : List (List Char)) (durations : List ℚ) : List Clip :=
  build_clips_aux 0 (texts.map parse_events) durations

/-- Modelled from the spec: `concatenate_videoclips` (external moviepy) is
absent from src/; per the spec it lays clips end to end in input order, so
clip `i` starts at the sum of the durations before it. -/
def start_time (clips : List Clip) (i : Nat) : ℚ :=
  ((clips.take i).map Clip.duration).sum

/-- Modelled from the spec: total timeline length of the concatenation. -/
def total_duration (clips : List Clip) : ℚ :=
  (clips.map Clip.duration).sum

/-! ## Helper lemmas -/

/-- A pattern fold step leaves the state untouched when its pattern does
not occur in the current text. -/
theorem parse_fold_id (ps : List (String × List Char)) :
    ∀ txt evs, (∀ pe ∈ ps, containsSub pe.2 txt = false) →
      List.foldl parse_step (txt, evs) ps = (txt, evs) := by
  induction ps with
  | nil => intro txt evs _; rfl
  | cons pe ps ih =>
    intro txt evs h
    have h0 : containsSub pe.2 txt = false := h pe (List.mem_cons_self pe ps)
    have hstep : parse_step (txt, evs) pe = (txt, evs) := by
      simp [parse_step, h0]
    rw [List.foldl_cons, hstep]
    exact ih txt evs (fun q hq => h q (List.mem_cons_of_mem pe hq))

/-- The events accumulated by the pattern fold extend the incoming events
by a sublist of the vocabulary-ordered event list of the patterns. -/
theorem parse_fold_sublist (ps : List (String × List Char)) :
    ∀ txt evs, ∃ l, (List.foldl parse_step (txt, evs) ps).2 = evs ++ l ∧
      List.Sublist l (ps.map fun pe => ((1 : ℚ) / 2, pe.1)) := by
  induction ps with
  | nil => intro txt evs; exact ⟨[], by simp, List.nil_sublist _⟩
  | cons pe ps ih =>
    intro txt evs
    rw [List.foldl_cons]
    by_cases hc : containsSub pe.2 txt = true
    · have hstep : parse_step (txt, evs) pe
          = (pyStrip (removeAll pe.2 txt), evs ++ [((1 : ℚ) / 2, pe.1)]) := by
        simp [parse_step, hc]
      rw [hstep]
      obtain ⟨l, hl, hs⟩ := ih (pyStrip (removeAll pe.2 txt)) (evs ++ [((1 : ℚ) / 2, pe.1)])
      refine ⟨((1 : ℚ) / 2, pe.1) :: l, ?_, ?_⟩
      · rw [hl, List.append_assoc]; rfl
      · simpa using List.Sublist.cons₂ ((1 : ℚ) / 2, pe.1) hs
    · have hstep : parse_step (txt, evs) pe = (txt, evs) := by
        simp [parse_step, hc]
      rw [hstep]
      obtain ⟨l, hl, hs⟩ := ih txt evs
      exact ⟨l, hl, by simpa using List.Sublist.cons ((1 : ℚ) / 2, pe.1) hs⟩

/-! ## C2 -/

/-- Claim C2, counterexample: on the input of the spec's worked example the
parser does not return the advertised clean text: removing the second
marker leaves the two spaces that surrounded the first one, and `strip`
only trims the ends, so the result is two-spaced, not single-spaced. -/
theorem c2_counterexample :
    parse_events (str2l "Hi [laugh] there [laugh]!")
      ≠ (str2l "Hi there !", [((1 : ℚ) / 2, "laugh")]) := by
  intro h
  have h1 : (parse_events (str2l "Hi [laugh] there [laugh]!")).1
      = str2l "Hi there !" := congrArg Prod.fst h
  exact absurd h1 (by decide)

/-- Claim C2 (amended): parsing the example yields the event list
`[(0.5, laugh)]` as claimed, but the clean text keeps the interior double
space: it is the two-spaced string, with only end whitespace trimmed. -/
theorem c2_amended :
    parse_events (str2l "Hi [laugh] there [laugh]!")
      = (str2l "Hi  there !", [((1 : ℚ) / 2, "laugh")]) := rfl

/-! ## C7 -/

/-- Claim C7, counterexample: the tag types are processed sequentially, so
removing one tag can splice together an occurrence of a later tag.  On
this input an event is emitted for surprise even though the input contains
no occurrence of the surprise marker, and dually the returned text still
contains the recognised laugh marker. -/
theorem c7_counterexample :
    (parse_events (str2l "[sur[laugh]prise]")).2
        = [((1 : ℚ) / 2, "laugh"), ((1 : ℚ) / 2, "surprise")] ∧
      containsSub (str2l "[surprise]") (str2l "[sur[laugh]prise]") = false ∧
      containsSub (str2l "[laugh]") (parse_events (str2l "[la[surprise]ugh]")).1 = true := by
  refine ⟨rfl, by decide, by decide⟩

/-- Claim C7 (amended): the parser emits at most one event per recognised
tag type, each with trigger time 0.5, ordered by the fixed vocabulary
order — the event list is always a sublist of the full vocabulary event
list.  (Because types are processed sequentially against the progressively
rewritten text, removal of one tag can splice together an occurrence of a
later tag, emitting an event for a type not present in the original, or of
an earlier tag, which then survives in the output text.) -/
theorem c7_amended (text : List Char) :
    List.Sublist (parse_events text).2
      [((1 : ℚ) / 2, "laugh"), ((1 : ℚ) / 2, "surprise"), ((1 : ℚ) / 2, "sad"),
       ((1 : ℚ) / 2, "excited"), ((1 : ℚ) / 2, "angry"), ((1 : ℚ) / 2, "confused")] := by
  obtain ⟨l, hl, hs⟩ := parse_fold_sublist EVENT_PATTERNS text []
  unfold parse_events
  rw [hl, List.nil_append]
  simpa [EVENT_PATTERNS] using hs

/-! ## C8 -/

/-- Claim C8, counterexample: on marker-free input the text is returned
unchanged — the `strip` call sits inside the `if match` branch, so
surrounding whitespace is not trimmed. -/
theorem c8_counterexample :
    parse_events (str2l " hello ") = (str2l " hello ", []) ∧
      str2l " hello " ≠ str2l "hello" := by
  exact ⟨rfl, by decide⟩

/-- Claim C8 (amended): for text containing none of the six recognised
markers, the parser returns an empty event list together with the original
text unchanged (no whitespace trimming happens on this path). -/
theorem c8_amended (text : List Char)
    (h : ∀ pe ∈ EVENT_PATTERNS, containsSub pe.2 text = false) :
    parse_events text = (text, []) :=
  parse_fold_id EVENT_PATTERNS text [] h

/-- Witness for the amended claim C8 at a concrete marker-free input. -/
theorem c8_amended_witness :
    (∀ pe ∈ EVENT_PATTERNS, containsSub pe.2 (str2l "ok bro") = false) ∧
      parse_events (str2l "ok bro") = (str2l "ok bro", []) :=
  ⟨by decide, c8_amended (str2l "ok bro") (by decide)⟩

/-! ## C3 -/

/-- Claim C3, counterexample: when the external text-to-speech call fails,
`generate_gtts` catches the exception, logs it, and returns normally — the
failure is not surfaced to the caller. -/
theorem c3_counterexample :
    (generate_gtts "dialog_0.mp3" (Except.error "network unreachable")).isOk = true ∧
      generate_gtts "dialog_0.mp3" (Except.error "network unreachable")
        ≠ Except.error "network unreachable" := by
  refine ⟨rfl, by simp [generate_gtts]⟩

/-- Claim C3 (amended): a provider failure in either generator is caught
inside the function, which logs the error message and returns normally;
the pipeline continues rather than failing fast. -/
theorem c3_amended (output_file e : String) :
    generate_gtts output_file (Except.error e)
        = Except.ok [(LogLevel.error, "gTTS audio generation error: " ++ e)] ∧
      generate_playht output_file (Except.error e)
        = Except.ok [(LogLevel.error, "Play.ht audio generation error: " ++ e)] :=
  ⟨rfl, rfl⟩

/-! ## C1 -/

/-- Loop invariant for the font-size fitting loop: when the loop is
entered with enough fuel, the result either fits in 3 lines or keeps the
font of the last iteration the loop actually executed, whose size lies in
(20, 22] — size 20 itself is never tried. -/
theorem fitLoop_inv (gw : Nat → List Char → Nat) (text : List Char) (mw : Nat) :
    ∀ fuel current font lines, current ≤ 2 * fuel + 20 →
      (lines.length ≤ 3 ∨ (20 < font ∧ font ≤ 22) ∨ 20 < current) →
      ((fitLoop gw text mw fuel current font lines).lines.length ≤ 3 ∨
        (20 < (fitLoop gw text mw fuel current font lines).font ∧
          (fitLoop gw text mw fuel current font lines).font ≤ 22)) := by
  intro fuel
  induction fuel with
  | zero =>
    intro current font lines hfuel hinv
    have hc : ¬ 20 < current := by omega
    rcases hinv with h | h | h
    · exact Or.inl h
    · exact Or.inr h
    · exact absurd h hc
  | succ fuel ih =>
    intro current font lines hfuel hinv
    by_cases hc : 20 < current
    · by_cases h3 : (wrap_text (gw current) text mw).length ≤ 3
      · simp only [fitLoop, if_pos hc, if_pos h3]
        exact Or.inl h3
      · simp only [fitLoop, if_pos hc, if_neg h3]
        apply ih
        · omega
        · by_cases hc2 : 20 < current - 2
          · exact Or.inr (Or.inr hc2)
          · exact Or.inr (Or.inl ⟨hc, by omega⟩)
    · simp only [fitLoop, if_neg hc]
      rcases hinv with h | h | h
      · exact Or.inl h
      · exact Or.inr h
      · exact absurd h hc

/-- Claim C1, counterexample: with a glyph measure under which nothing
fits (constant width 2000 against budget 1820) and four words, every tried
size yields 5 lines, so the loop exhausts.  The sizes tried from base 48
are 48, 46, ..., 22: size 20 is never tried, and the layout is rendered
with the size-22 font (only the internal counter ends at 20), refuting
"uses the smallest tried size, which is 20". -/
theorem c1_counterexample :
    (create_subtitle_layout (fun _ _ => 2000) 1920 (str2l "aa bb cc dd") 48).font = 22 ∧
      3 < (create_subtitle_layout (fun _ _ => 2000) 1920
        (str2l "aa bb cc dd") 48).lines.length ∧
      (create_subtitle_layout (fun _ _ => 2000) 1920 (str2l "aa bb cc dd") 48).font ≠ 20 ∧
      (create_subtitle_layout (fun _ _ => 2000) 1920
        (str2l "aa bb cc dd") 48).current_fontsize = 20 := by
  refine ⟨by decide, by decide, by decide, by decide⟩

/-- Claim C1 (amended): for every glyph measure, frame width, text and base
font size, the layout either has at most 3 wrapped lines or was produced
at the last tried font size, which lies in (20, 22] (22 for the default
even base 48) — the loop never tries size 20 itself and never raises. -/
theorem c1_amended (gw : Nat → List Char → Nat) (w : Nat) (text : List Char)
    (fontsize : Nat) :
    (create_subtitle_layout gw w text fontsize).lines.length ≤ 3 ∨
      (20 < (create_subtitle_layout gw w text fontsize).font ∧
        (create_subtitle_layout gw w text fontsize).font ≤ 22) := by
  apply fitLoop_inv gw text (w - 100) fontsize fontsize fontsize []
  · omega
  · exact Or.inl (by simp)

/-! ## C4 and C5 helper lemmas -/

/-- The event loop leaves the offset untouched when no event in the list
is active at `t`. -/
theorem foldl_offset_inactive (t : ℝ) :
    ∀ (l : List (ℝ × String)) (acc : ℤ),
      (∀ ev ∈ l, ¬ event_active ev t) → List.foldl (offset_step t) acc l = acc := by
  intro l
  induction l with
  | nil => intro acc _; rfl
  | cons ev l ih =>
    intro acc h
    rw [List.foldl_cons]
    have hstep : offset_step t acc ev = acc := by
      unfold offset_step
      exact if_neg (h ev (List.mem_cons_self ev l))
    rw [hstep]
    exact ih acc fun e he => h e (List.mem_cons_of_mem ev he)

/-! ## C4 -/

/-- Claim C4, counterexample: at `t = π/40` the idle displacement computed
by the code is `int(5 * sin(π/4)) = int(5√2/2) = int(3.53...) = 3`
(truncation toward zero), while the claimed formula
`round(5 * sin(t * 10))` gives 4. -/
theorem c4_counterexample :
    compute_offset [] (Real.pi / 40) = 3 ∧
      round ((5 : ℝ) * Real.sin (Real.pi / 40 * 10)) = 4 := by
  have harg : Real.pi / 40 * 10 = Real.pi / 4 := by ring
  have hsin : Real.sin (Real.pi / 40 * 10) = Real.sqrt 2 / 2 := by
    rw [harg, Real.sin_pi_div_four]
  have hs0 : (0 : ℝ) ≤ Real.sqrt 2 := Real.sqrt_nonneg 2
  have hs2 : Real.sqrt 2 ^ 2 = 2 := Real.sq_sqrt (by norm_num)
  have hlb : (1.4 : ℝ) ≤ Real.sqrt 2 := by nlinarith
  have hub : Real.sqrt 2 < (1.6 : ℝ) := by nlinarith
  constructor
  · show shake_offset (Real.pi / 40) 5 10 = 3
    unfold shake_offset
    have hcast : ((5 : ℤ) : ℝ) * Real.sin (Real.pi / 40 * ((10 : ℤ) : ℝ))
        = 5 * Real.sin (Real.pi / 40 * 10) := by push_cast; ring
    rw [hcast, hsin]
    unfold pyInt
    rw [if_pos (by positivity), Int.floor_eq_iff]
    constructor
    · push_cast; nlinarith
    · push_cast; nlinarith
  · rw [hsin, round_eq, Int.floor_eq_iff]
    constructor
    · push_cast; nlinarith
    · push_cast; nlinarith

/-- Claim C4 (amended): the displacement is the Python `int` truncation
toward zero — not the rounding — of `shakeAmount * sin(t * frequency)`:
the idle offset is `int(5 * sin(t * 10))`, an active event's offset uses
its table parameters at the same `t`, the table is exactly
laugh(15,20), surprise(20,30), sad(5,10), excited(25,40), angry(30,50),
confused(10,15), and an unknown emotion falls back to (5,10). -/
theorem c4_amended (t trig : ℝ) (et : String) (h : trig ≤ t ∧ t < trig + 1 / 2) :
    compute_offset [] t = pyInt (5 * Real.sin (t * 10)) ∧
      compute_offset [(trig, et)] t
        = pyInt (((movement_params et).1 : ℝ)
            * Real.sin (t * ((movement_params et).2 : ℝ))) ∧
      movement_params "laugh" = (15, 20) ∧
      movement_params "surprise" = (20, 30) ∧
      movement_params "sad" = (5, 10) ∧
      movement_params "excited" = (25, 40) ∧
      movement_params "angry" = (30, 50) ∧
      movement_params "confused" = (10, 15) ∧
      (∀ s : String, s ≠ "laugh" → s ≠ "surprise" → s ≠ "sad" → s ≠ "excited" →
        s ≠ "angry" → s ≠ "confused" → movement_params s = (5, 10)) := by
  refine ⟨?_, ?_, rfl, rfl, rfl, rfl, rfl, rfl, ?_⟩
  · show shake_offset t 5 10 = pyInt (5 * Real.sin (t * 10))
    unfold shake_offset
    norm_num
  · have hact : event_active (trig, et) t := h
    show offset_step t (shake_offset t 5 10) (trig, et)
        = pyInt (((movement_params et).1 : ℝ)
            * Real.sin (t * ((movement_params et).2 : ℝ)))
    unfold offset_step
    rw [if_pos hact]
    rfl
  · intro s h1 h2 h3 h4 h5 h6
    have e1 : (s == "laugh") = false := beq_eq_false_iff_ne.mpr h1
    have e2 : (s == "surprise") = false := beq_eq_false_iff_ne.mpr h2
    have e3 : (s == "sad") = false := beq_eq_false_iff_ne.mpr h3
    have e4 : (s == "excited") = false := beq_eq_false_iff_ne.mpr h4
    have e5 : (s == "angry") = false := beq_eq_false_iff_ne.mpr h5
    have e6 : (s == "confused") = false := beq_eq_false_iff_ne.mpr h6
    simp [movement_params, EVENT_MOVEMENTS, List.lookup, e1, e2, e3, e4, e5, e6]

/-- Witness for the amended claim C4, at `t = 0` with a laugh event firing
at time 0. -/
theorem c4_amended_witness :
    ((0 : ℝ) ≤ 0 ∧ (0 : ℝ) < 0 + 1 / 2) ∧
      compute_offset [((0 : ℝ), "laugh")] 0
        = pyInt (((movement_params "laugh").1 : ℝ)
            * Real.sin (0 * ((movement_params "laugh").2 : ℝ))) := by
  have h : (0 : ℝ) ≤ 0 ∧ (0 : ℝ) < 0 + 1 / 2 := ⟨le_refl 0, by norm_num⟩
  exact ⟨h, (c4_amended 0 0 "laugh" h).2.1⟩

/-! ## C5 -/

/-- Claim C5: the idle displacement is overridden exactly on the window
`triggerTime ≤ t < triggerTime + 0.5` — if no event is active the offset
is the idle sway, and if some are, the last active event in iteration
order wins (for parser-produced lists that order is the vocabulary order,
by the C7 sublist property).  The offset is added to the speaking
character's anchor only; the other character stays at its static anchor. -/
theorem c5_theorem (events : List (ℝ × String)) (t : ℝ) (c2w : ℤ) :
    ((∀ ev ∈ events, ¬ event_active ev t) →
        compute_offset events t = shake_offset t 5 10) ∧
      (∀ pre ev post, events = pre ++ ev :: post → event_active ev t →
        (∀ e ∈ post, ¬ event_active e t) →
        compute_offset events t
          = shake_offset t (movement_params ev.2).1 (movement_params ev.2).2) ∧
      char_positions c2w 1 events t = (10 + compute_offset events t, 1920 - c2w - 10) ∧
      char_positions c2w 2 events t = (10, 1920 - c2w - 10 + compute_offset events t) := by
  refine ⟨?_, ?_, ?_, ?_⟩
  · intro h
    unfold compute_offset
    exact foldl_offset_inactive t events _ h
  · intro pre ev post hsplit hact hpost
    subst hsplit
    unfold compute_offset
    rw [List.foldl_append, List.foldl_cons]
    have hstep : offset_step t (List.foldl (offset_step t) (shake_offset t 5 10) pre) ev
        = shake_offset t (movement_params ev.2).1 (movement_params ev.2).2 := by
      unfold offset_step
      exact if_pos hact
    rw [hstep]
    exact foldl_offset_inactive t post _ hpost
  · simp [char_positions]
  · simp [char_positions]

/-- Witness for claim C5: a laugh event firing at 0 is active at `t = 0`
and wins over the later, inactive sad event; the speaking character 1 gets
the offset added to its anchor. -/
theorem c5_witness :
    event_active ((0 : ℝ), "laugh") 0 ∧
      compute_offset [((0 : ℝ), "laugh"), ((10 : ℝ), "sad")] 0
        = shake_offset 0 (movement_params "laugh").1 (movement_params "laugh").2 ∧
      char_positions 100 1 [((0 : ℝ), "laugh"), ((10 : ℝ), "sad")] 0
        = (10 + compute_offset [((0 : ℝ), "laugh"), ((10 : ℝ), "sad")] 0,
            1920 - 100 - 10) := by
  have hact : event_active ((0 : ℝ), "laugh") 0 := ⟨le_refl 0, by norm_num⟩
  have hpost : ∀ e ∈ [((10 : ℝ), "sad")], ¬ event_active e 0 := by
    intro e he
    rw [List.mem_singleton] at he
    subst he
    intro hcon
    have h10 : (10 : ℝ) ≤ 0 := hcon.1
    norm_num at h10
  refine ⟨hact, ?_, ?_⟩
  · exact (c5_theorem [((0 : ℝ), "laugh"), ((10 : ℝ), "sad")] 0 100).2.1
      [] ((0 : ℝ), "laugh") [((10 : ℝ), "sad")] rfl hact hpost
  · exact (c5_theorem [((0 : ℝ), "laugh"), ((10 : ℝ), "sad")] 0 100).2.2.1

/-! ## C6 helper lemmas -/

/-- Each built clip's duration is its audio duration plus 0.5. -/
theorem build_clips_aux_map_duration :
    ∀ (i : Nat) (ps : List (List Char × List (ℚ × String))) (ds : List ℚ),
      ps.length = ds.length →
      (build_clips_aux i ps ds).map Clip.duration = ds.map (fun d => d + 1 / 2) := by
  intro i ps
  induction ps generalizing i with
  | nil =>
    intro ds h
    match ds with
    | [] => rfl
    | _ :: _ => simp at h
  | cons p ps ih =>
    intro ds h
    match ds with
    | [] => simp at h
    | d :: ds =>
      obtain ⟨tx, evs⟩ := p
      simp only [build_clips_aux, List.map_cons]
      rw [ih (i + 1) ds (by simpa using h)]

/-- The speaking character of the clip at position `j`, built starting
from loop index `i`, follows the 4-cycle rule at index `i + j`. -/
theorem build_clips_aux_speaking :
    ∀ (ps : List (List Char × List (ℚ × String))) (ds : List ℚ) (i j : Nat)
      (h : j < (build_clips_aux i ps ds).length),
      ((build_clips_aux i ps ds).get ⟨j, h⟩).speaking_char
        = if (i + j) % 4 = 0 ∨ (i + j) % 4 = 1 then 1 else 2 := by
  intro ps
  induction ps with
  | nil => intro ds i j h; simp [build_clips_aux] at h
  | cons p ps ih =>
    intro ds i j h
    match ds with
    | [] =>
      obtain ⟨tx, evs⟩ := p
      simp [build_clips_aux] at h
    | d :: ds =>
      obtain ⟨tx, evs⟩ := p
      match j with
      | 0 => simp [build_clips_aux]
      | j + 1 =>
        have h2 : j < (build_clips_aux (i + 1) ps ds).length := by
          simpa [build_clips_aux] using h
        have hstep := ih ds (i + 1) j h2
        have harith : i + 1 + j = i + (j + 1) := by omega
        rw [harith] at hstep
        exact hstep

/-- Prefix-sum step for start times. -/
theorem start_time_succ :
    ∀ (clips : List Clip) (i : Nat) (h : i < clips.length),
      start_time clips (i + 1) = start_time clips i + (clips.get ⟨i, h⟩).duration := by
  intro clips
  induction clips with
  | nil => intro i h; simp at h
  | cons c cs ih =>
    intro i h
    match i with
    | 0 => simp [start_time]
    | i + 1 =>
      have h2 : i < cs.length := by simpa using h
      simp only [start_time, List.take_succ_cons, List.map_cons, List.sum_cons,
        List.get_cons_succ]
      rw [show ((cs.take (i + 1)).map Clip.duration).sum = start_time cs (i + 1) from rfl,
        show ((cs.take i).map Clip.duration).sum = start_time cs i from rfl,
        ih i h2, add_assoc]

/-! ## C6 -/

/-- Claim C6: each turn's clip duration is its resolved audio duration
plus 0.5; the speaking character is 1 exactly when the turn index mod 4 is
0 or 1, else 2; the concatenated timeline has each turn starting exactly
where the previous declared duration ends, and the total duration is the
sum of all `audioDuration + 0.5`. -/
theorem c6_theorem (texts : List (List Char)) (ds : List ℚ)
    (h : texts.length = ds.length) :
    (build_clips texts ds).map Clip.duration = ds.map (fun d => d + 1 / 2) ∧
      (∀ i : Fin (build_clips texts ds).length,
        ((build_clips texts ds).get i).speaking_char
          = if i.1 % 4 = 0 ∨ i.1 % 4 = 1 then 1 else 2) ∧
      (∀ i : Fin (build_clips texts ds).length,
        start_time (build_clips texts ds) (i.1 + 1)
          = start_time (build_clips texts ds) i.1
            + ((build_clips texts ds).get i).duration) ∧
      total_duration (build_clips texts ds) = (ds.map (fun d => d + 1 / 2)).sum := by
  have hlen : (texts.map parse_events).length = ds.length := by simpa using h
  have hdur := build_clips_aux_map_duration 0 (texts.map parse_events) ds hlen
  refine ⟨hdur, ?_, ?_, ?_⟩
  · intro i
    have hsp := build_clips_aux_speaking (texts.map parse_events) ds 0 i.1 i.2
    simpa using hsp
  · intro i
    exact start_time_succ (build_clips texts ds) i.1 i.2
  · unfold total_duration build_clips
    rw [hdur]

/-- Witness for claim C6 on the spec's end-to-end scenario: two turns with
audio durations 3.0 and 2.2 seconds. -/
theorem c6_witness :
    ([str2l "Hello", str2l "World"].length = [(3 : ℚ), 11 / 5].length) ∧
      ((build_clips [str2l "Hello", str2l "World"] [(3 : ℚ), 11 / 5]).map Clip.duration
          = [(3 : ℚ), 11 / 5].map (fun d => d + 1 / 2) ∧
        (∀ i : Fin (build_clips [str2l "Hello", str2l "World"]
            [(3 : ℚ), 11 / 5]).length,
          ((build_clips [str2l "Hello", str2l "World"] [(3 : ℚ), 11 / 5]).get i).speaking_char
            = if i.1 % 4 = 0 ∨ i.1 % 4 = 1 then 1 else 2) ∧
        (∀ i : Fin (build_clips [str2l "Hello", str2l "World"]
            [(3 : ℚ), 11 / 5]).length,
          start_time (build_clips [str2l "Hello", str2l "World"] [(3 : ℚ), 11 / 5]) (i.1 + 1)
            = start_time (build_clips [str2l "Hello", str2l "World"] [(3 : ℚ), 11 / 5]) i.1
              + ((build_clips [str2l "Hello", str2l "World"] [(3 : ℚ), 11 / 5]).get i).duration) ∧
        total_duration (build_clips [str2l "Hello", str2l "World"] [(3 : ℚ), 11 / 5])
          = ([(3 : ℚ), 11 / 5].map (fun d => d + 1 / 2)).sum) :=
  ⟨rfl, c6_theorem [str2l "Hello", str2l "World"] [(3 : ℚ), 11 / 5] rfl⟩

/-! ## C9 -/

/-- Claim C9: frame rendering is deterministic and mutation-free — the
state captured by the renderer comes back unchanged from a call, and
rendering again at the same `t` from the returned state yields the same
frame. -/
theorem c9_theorem (subtitle_draw : Nat → Nat → List Char → Img)
    (st : DialogState) (t : ℝ) :
    (dialog_call subtitle_draw st t).2 = st ∧
      (dialog_call subtitle_draw st t).1
        = (dialog_call subtitle_draw (dialog_call subtitle_draw st t).2 t).1 :=
  ⟨rfl, rfl⟩

/-! ## C10 -/

/-- Claim C10: when the first word alone measures wider than the budget
(here a 10-unit word against budget 5 under the length measure), the
greedy wrapper closes the still-empty current line — emitting an empty
string as the first wrapped line — and the oversized word is not split: it
occupies the following line on its own, wider than the budget. -/
theorem c10_oversized_word :
    wrap_text (fun l => l.length) (str2l "abcdefghij xy") 5
        = [[], str2l "abcdefghij", str2l "xy"] ∧
      (str2l "abcdefghij").length > 5 := by
  refine ⟨by decide, by decide⟩
